import Mathlib

/-!
Shallow embedding of the Formula 1 season tracker
(src/g_cadet_inst326_final_project.py), covering the standings core:
the entity model (Driver, Team, Race, RaceResult), the scoring table
POINT_SCALE, the global registries (drivers_dict, teams_dict, race_dict),
and the operations add_driver, add_race, record_race_result,
display_driver_position, display_team_standings.

Modelling conventions:
- Python Driver objects are mutable and shared by reference (a Team roster
  and the RaceResult records hold references, drivers_dict holds the
  current object for a name).  We model the object store as a list
  `heap : List DriverObj`; a DriverId is an index into it, allocated in
  creation order (Python `Driver(name, team)` = append to the heap).
- Team objects are keyed by name and are never replaced once created
  (add_driver reuses an existing team), so a team name identifies its
  object; teams_dict is an insertion-ordered association list.
- Python dicts preserve insertion order and an assignment to an existing
  key keeps its slot; `upsert` models dict assignment, `alookup` models
  dict lookup, `updateKey` models in-place mutation of a stored object.
- Python `int(position)` on an already-stripped string is modelled by
  `pyInt` (optional sign followed by at least one decimal digit); a parse
  failure (ValueError) and the explicit
  `int(position) < 1` check are both surfaced as the spec error kind
  InvalidPosition ("position is not a positive integer"); the single
  message printed by the unknown race/driver branch is carried verbatim
  in the UnknownEntity error.
-/

namespace F1

/-- Driver entity: name, owning team (by name), cumulative points, and the
transient position field assigned by display_driver_position. -/
structure DriverObj where
  name : String
  team : String
  points : Nat
  position : Option Nat
deriving DecidableEq

/-- Team entity: name, cumulative points, and the roster of member drivers
(held by reference in Python; here by DriverId) in join order. -/
structure TeamObj where
  name : String
  points : Nat
  drivers : List Nat
deriving DecidableEq

/-- RaceResult entity: the driver reference and the recorded position. -/
structure RaceResult where
  driver : Nat
  position : Int
deriving DecidableEq

/-- Race entity: name and the ordered sequence of recorded results. -/
structure Race where
  name : String
  results : List RaceResult
deriving DecidableEq

/-- Default driver object used with List.getD; never reachable through a
well-formed registry (every stored DriverId is in range). -/
def dummyDriver : DriverObj := ⟨"", "", 0, none⟩

/-- The whole mutable program state: the driver object store plus the three
global registries drivers_dict, teams_dict, race_dict of the source. -/
structure State where
  heap : List DriverObj
  drivers_dict : List (String × Nat)
  teams_dict : List (String × TeamObj)
  race_dict : List (String × Race)
deriving DecidableEq

/-- Lookup in an insertion-ordered association list (Python dict .get). -/
def alookup {α : Type} : List (String × α) → String → Option α
  | [], _ => none
  | (k', v) :: t, k => if k' = k then some v else alookup t k

/-- Python dict assignment: replace the value of an existing key in place,
otherwise append the binding at the end. -/
def upsert {α : Type} : List (String × α) → String → α → List (String × α)
  | [], k, v => [(k, v)]
  | (k', v') :: t, k, v =>
      if k' = k then (k, v) :: t else (k', v') :: upsert t k v

/-- In-place mutation of the object stored under a key (Python mutates the
object through the reference held by the dict); no-op if the key is absent. -/
def updateKey {α : Type} : List (String × α) → String → (α → α) → List (String × α)
  | [], _, _ => []
  | (k', v') :: t, k, f =>
      if k' = k then (k', f v') :: t else (k', v') :: updateKey t k f

/-- In-place mutation of the object at a heap index; no-op if out of range. -/
def listModify {α : Type} : List α → Nat → (α → α) → List α
  | [], _, _ => []
  | a :: t, 0, f => f a :: t
  | a :: t, i + 1, f => a :: listModify t i f

/-- Decimal value of a digit character (code points 48-57), none
otherwise. -/
def digitVal (c : Char) : Option Nat :=
  let n := c.toNat
  if 48 ≤ n ∧ n ≤ 57 then some (n - 48) else none

/-- Accumulate decimal digits; fails at the first non-digit character. -/
def natOfDigits : List Char → Nat → Option Nat
  | [], acc => some acc
  | c :: t, acc =>
    match digitVal c with
    | some d => natOfDigits t (acc * 10 + d)
    | none => none

/-- A non-empty all-digit character sequence, as a number. -/
def natBody : List Char → Option Nat
  | [] => none
  | l => natOfDigits l 0

/-- Model of Python int() applied to an already-stripped string: an
optional sign followed by at least one decimal digit; anything else
raises ValueError, modelled as none. -/
def pyInt (s : String) : Option Int :=
  match s.data with
  | '-' :: rest => (natBody rest).map (fun n => -(n : Int))
  | '+' :: rest => (natBody rest).map (fun n => (n : Int))
  | l => (natBody l).map (fun n => (n : Int))

/-- POINT_SCALE = {1: 25, 2: 18, 3: 15, 4: 12, 5: 10, 6: 8, 7: 6, 8: 4,
9: 2, 10: 1}; POINT_SCALE.get(pos, 0) returns 0 outside the table. -/
def POINT_SCALE (p : Int) : Nat :=
  if p = 1 then 25
  else if p = 2 then 18
  else if p = 3 then 15
  else if p = 4 then 12
  else if p = 5 then 10
  else if p = 6 then 8
  else if p = 7 then 6
  else if p = 8 then 4
  else if p = 9 then 2
  else if p = 10 then 1
  else 0

/-- The empty startup state: all four stores empty. -/
def initState : State := ⟨[], [], [], []⟩

/-- One iteration of the add_race input loop for a non-empty stripped name:
race = Race(name); race_dict[name] = race. -/
def add_race (st : State) (name : String) : State :=
  { st with race_dict := upsert st.race_dict name ⟨name, []⟩ }

/-- One iteration of the add_driver input loop for a parsed, non-empty
(name, team_name) pair: fetch or create the team, create a fresh Driver,
store it under the name, and append it to the team roster. -/
def add_driver (st : State) (name team_name : String) : State :=
  let st1 :=
    if (alookup st.teams_dict team_name).isSome then st
    else { st with teams_dict := st.teams_dict ++ [(team_name, ⟨team_name, 0, []⟩)] }
  { st1 with
      heap := st1.heap ++ [⟨name, team_name, 0, none⟩],
      drivers_dict := upsert st1.drivers_dict name st1.heap.length,
      teams_dict := updateKey st1.teams_dict team_name
        (fun t => { t with drivers := t.drivers ++ [st1.heap.length] }) }

/-- Error kinds of the result recorder, per the spec error taxonomy.
InvalidPosition covers both the ValueError raised by int(position) on a
non-numeric string and the explicit `int(position) < 1` rejection; the
UnknownEntity constructor carries the exact message the source prints in
its else branch. -/
inductive RecordError where
  | invalidPosition : RecordError
  | unknownEntity : String → RecordError
deriving DecidableEq

/-- The success-path mutations of record_race_result (source lines
209-213): append RaceResult(driver, position) to the race, look up the
points for the position with POINT_SCALE.get(position, 0), add them to
the driver object and to the team object referenced by the driver. -/
def recordedState (st : State) (race_name : String) (did : Nat) (p : Int) : State :=
  let d := st.heap.getD did dummyDriver
  let pts := POINT_SCALE p
  { st with
    race_dict := updateKey st.race_dict race_name
      (fun rc => { rc with results := rc.results ++ [⟨did, p⟩] }),
    heap := listModify st.heap did
      (fun dr => { dr with points := dr.points + pts }),
    teams_dict := updateKey st.teams_dict d.team
      (fun t => { t with points := t.points + pts }) }

/-- One iteration of the record_race_result input loop for a parsed
(driver_name, position) pair against a given race name: parse the
position, reject non-positive positions, look up race and driver, and on
success apply the recordedState mutations; otherwise signal the error
(the source prints a message and leaves all state untouched). -/
def record_race_result (st : State) (race_name driver_name position : String) :
    Except RecordError State :=
  match pyInt position with
  | none => .error .invalidPosition
  | some p =>
    if p < 1 then .error .invalidPosition
    else
      match alookup st.race_dict race_name, alookup st.drivers_dict driver_name with
      | some _, some did => .ok (recordedState st race_name did p)
      | _, _ => .error (.unknownEntity "Invalid driver name or race name.")

/-- Comparison used by display_driver_position: sorted(..., key points,
reverse=True) is Python stable sort descending, i.e. a stable sort with
respect to (points of right) <= (points of left). -/
def driverLe (st : State) (i j : Nat) : Bool :=
  decide ((st.heap.getD j dummyDriver).points ≤ (st.heap.getD i dummyDriver).points)

/-- The position-assignment loop of display_driver_position:
for i, driver in enumerate(sorted_drivers, 1): driver.position = i. -/
def assignPositions : List DriverObj → List Nat → Nat → List DriverObj
  | heap, [], _ => heap
  | heap, did :: rest, i =>
      assignPositions (listModify heap did (fun d => { d with position := some i }))
        rest (i + 1)

/-- display_driver_position: sort the current driver objects by descending
points (stable over dict insertion order), assign position 1..N in that
order, and return the sorted sequence (printed in the source). -/
def display_driver_position (st : State) : State × List Nat :=
  let sorted_drivers := (st.drivers_dict.map Prod.snd).mergeSort (driverLe st)
  ({ st with heap := assignPositions st.heap sorted_drivers 1 }, sorted_drivers)

/-- Comparison used by display_team_standings (stable descending points). -/
def teamLe (a b : TeamObj) : Bool :=
  decide (b.points ≤ a.points)

/-- display_team_standings: sort the teams by descending points and pair
each with its 1-based rank (enumerate(sorted_teams, 1)); reads only. -/
def display_team_standings (st : State) : State × List (Nat × TeamObj) :=
  let sorted_teams := (st.teams_dict.map Prod.snd).mergeSort teamLe
  (st, sorted_teams.enum.map (fun q => (q.1 + 1, q.2)))

/-- The core operations as menu commands, for reasoning about traces. -/
inductive Op where
  | addDriver (name team_name : String) : Op
  | addRace (name : String) : Op
  | record (race_name driver_name position : String) : Op
  | displayDrivers : Op
  | displayTeams : Op
deriving DecidableEq

/-- Apply one operation to the state; a failed record_race_result leaves
the state unchanged, exactly as the source (which only prints a message
and continues). -/
def applyOp (st : State) : Op → State
  | .addDriver n t => add_driver st n t
  | .addRace n => add_race st n
  | .record r d p =>
      match record_race_result st r d p with
      | .ok st' => st'
      | .error _ => st
  | .displayDrivers => (display_driver_position st).1
  | .displayTeams => (display_team_standings st).1

/-- Run a trace of operations from a state. -/
def runOps (st : State) : List Op → State
  | [] => st
  | op :: rest => runOps (applyOp st op) rest

/-! Well-formed states: every stored driver id is a valid heap index, and
every driver object references a registered team.  Both hold in every
state reachable from initState. -/

def WF (st : State) : Prop :=
  (∀ q ∈ st.drivers_dict, q.2 < st.heap.length) ∧
  (∀ dr ∈ st.heap, (alookup st.teams_dict dr.team).isSome = true)

/-! Accounting of points awarded to teams along an operation trace. -/

/-- Cumulative points currently stored for the team registered under a
name (0 if the name is not registered). -/
def teamPoints (st : State) (t : String) : Nat :=
  ((alookup st.teams_dict t).map TeamObj.points).getD 0

/-- Points awarded to the team named t by one operation executed in state
st: nonzero only for a record operation that succeeds for a driver whose
object belongs to t, in which case it is the scoring-table value of the
position.  The cases mirror the control paths of record_race_result. -/
def awardedTo (st : State) (t : String) : Op → Nat
  | .record r d s =>
    match pyInt s with
    | none => 0
    | some p =>
      if p < 1 then 0
      else
        match alookup st.race_dict r, alookup st.drivers_dict d with
        | some _, some did =>
            if (st.heap.getD did dummyDriver).team = t then POINT_SCALE p else 0
        | _, _ => 0
  | _ => 0

/-- Total points awarded to the team named t across a trace of operations
run from st (each successful recording counted exactly once). -/
def totalAwarded (st : State) (t : String) : List Op → Nat
  | [] => 0
  | op :: rest => awardedTo st t op + totalAwarded (applyOp st op) t rest

/-! Sequences of record_race_result calls and per-driver point sums. -/

/-- Run a sequence of (race_name, driver_name, position) recordings,
stopping at the first failure; an ok result models a sequence of
successful record_race_result calls. -/
def runRecords (st : State) : List (String × String × String) → Except RecordError State
  | [] => .ok st
  | (r, d, s) :: rest =>
    match record_race_result st r d s with
    | .ok st' => runRecords st' rest
    | .error e => .error e

/-- Sum of the scoring-table values at the positions recorded for the
driver named dn by the commands of a list. -/
def sumPointsFor (dn : String) : List (String × String × String) → Nat
  | [] => 0
  | (_, d, s) :: rest =>
    (if d = dn then
      (match pyInt s with
       | some p => POINT_SCALE p
       | none => 0)
     else 0) + sumPointsFor dn rest

/-! Concrete states used to exercise the operations. -/

/-- A registry holding one race named Monza and nothing else. -/
def stRaceOnly : State := add_race initState "Monza"

/-- A registry holding one driver Alice on team Ferrari and no race. -/
def stDriverOnly : State := add_driver initState "Alice" "Ferrari"

/-- Drivers A (team T1) and B (team T2) plus race R1, no results yet. -/
def stSetup : State :=
  runOps initState [.addDriver "A" "T1", .addDriver "B" "T2", .addRace "R1"]

/-- Two recordings on R1: A finishes first, B second. -/
def recCmds : List (String × String × String) := [("R1", "A", "1"), ("R1", "B", "2")]

/-- The state after recording recCmds from stSetup. -/
def stScn : State := runOps stSetup [.record "R1" "A" "1", .record "R1" "B" "2"]

/-- Two drivers registered and tied on zero points. -/
def stTie : State := runOps initState [.addDriver "A" "T1", .addDriver "B" "T2"]

/-! Association-list lemmas. -/

theorem alookup_upsert_self {α : Type} (l : List (String × α)) (k : String) (v : α) :
    alookup (upsert l k v) k = some v := by
  induction l with
  | nil => simp [upsert, alookup]
  | cons q t ih =>
    obtain ⟨k', v'⟩ := q
    by_cases h : k' = k
    · simp [upsert, alookup, h]
    · simp [upsert, alookup, h, ih]

theorem alookup_upsert_ne {α : Type} (l : List (String × α)) (k k' : String) (v : α)
    (h : k' ≠ k) : alookup (upsert l k v) k' = alookup l k' := by
  have h2 : ¬ (k = k') := fun he => h he.symm
  induction l with
  | nil => simp [upsert, alookup, h2]
  | cons q t ih =>
    obtain ⟨k0, v0⟩ := q
    by_cases hq : k0 = k
    · subst hq
      simp [upsert, alookup, h2]
    · simp only [upsert, if_neg hq, alookup]
      by_cases hq' : k0 = k'
      · simp [hq']
      · simp [hq', ih]

theorem alookup_updateKey_self {α : Type} (l : List (String × α)) (k : String) (f : α → α) :
    alookup (updateKey l k f) k = (alookup l k).map f := by
  induction l with
  | nil => simp [updateKey, alookup]
  | cons q t ih =>
    obtain ⟨k0, v0⟩ := q
    by_cases h : k0 = k
    · simp [updateKey, alookup, h]
    · simp [updateKey, alookup, h, ih]

theorem alookup_updateKey_ne {α : Type} (l : List (String × α)) (k k' : String) (f : α → α)
    (h : k' ≠ k) : alookup (updateKey l k f) k' = alookup l k' := by
  have h2 : ¬ (k = k') := fun he => h he.symm
  induction l with
  | nil => simp [updateKey, alookup]
  | cons q t ih =>
    obtain ⟨k0, v0⟩ := q
    by_cases hq : k0 = k
    · subst hq
      simp [updateKey, alookup, h2]
    · simp only [updateKey, if_neg hq, alookup]
      by_cases hq' : k0 = k'
      · simp [hq']
      · simp [hq', ih]

theorem alookup_append {α : Type} (xs ys : List (String × α)) (key : String) :
    alookup (xs ++ ys) key = (alookup xs key).or (alookup ys key) := by
  induction xs with
  | nil => rfl
  | cons q t ih =>
    obtain ⟨k0, v0⟩ := q
    by_cases h : k0 = key
    · simp [alookup, h]
    · simp [alookup, h, ih]

theorem alookup_mem {α : Type} {l : List (String × α)} {k : String} {v : α}
    (h : alookup l k = some v) : (k, v) ∈ l := by
  induction l with
  | nil => simp [alookup] at h
  | cons q t ih =>
    obtain ⟨k0, v0⟩ := q
    by_cases hq : k0 = k
    · subst hq
      rw [alookup, if_pos rfl] at h
      cases h
      exact List.mem_cons_self _ _
    · rw [alookup, if_neg hq] at h
      exact List.mem_cons_of_mem _ (ih h)

theorem isSome_of_alookup_updateKey {α : Type} (l : List (String × α)) (k k' : String)
    (f : α → α) : (alookup (updateKey l k f) k').isSome = (alookup l k').isSome := by
  by_cases h : k' = k
  · subst h
    rw [alookup_updateKey_self]
    cases alookup l k' <;> rfl
  · rw [alookup_updateKey_ne _ _ _ _ h]

theorem mem_upsert {α : Type} {l : List (String × α)} {k : String} {v : α} {q : String × α}
    (h : q ∈ upsert l k v) : q ∈ l ∨ q = (k, v) := by
  induction l with
  | nil =>
    simp [upsert] at h
    right; exact h
  | cons q' t ih =>
    obtain ⟨k0, v0⟩ := q'
    by_cases hq : k0 = k
    · rw [upsert, if_pos hq] at h
      rcases List.mem_cons.mp h with h | h
      · right; exact h
      · left; exact List.mem_cons_of_mem _ h
    · rw [upsert, if_neg hq] at h
      rcases List.mem_cons.mp h with h | h
      · left; exact h ▸ List.mem_cons_self _ _
      · rcases ih h with h' | h'
        · left; exact List.mem_cons_of_mem _ h'
        · right; exact h'

theorem mem_updateKey {α : Type} {l : List (String × α)} {k : String} {f : α → α}
    {q : String × α} (h : q ∈ updateKey l k f) :
    q ∈ l ∨ ∃ q' ∈ l, q = (q'.1, f q'.2) := by
  induction l with
  | nil => simp [updateKey] at h
  | cons q' t ih =>
    obtain ⟨k0, v0⟩ := q'
    by_cases hq : k0 = k
    · rw [updateKey, if_pos hq] at h
      rcases List.mem_cons.mp h with h | h
      · right
        exact ⟨(k0, v0), List.mem_cons_self _ _, h⟩
      · left; exact List.mem_cons_of_mem _ h
    · rw [updateKey, if_neg hq] at h
      rcases List.mem_cons.mp h with h | h
      · left; exact h ▸ List.mem_cons_self _ _
      · rcases ih h with h' | ⟨q'', hq'', he⟩
        · left; exact List.mem_cons_of_mem _ h'
        · right; exact ⟨q'', List.mem_cons_of_mem _ hq'', he⟩

/-! Behaviour of record_race_result on each control path. -/

theorem record_parse_fail (st : State) (r d s : String) (hs : pyInt s = none) :
    record_race_result st r d s = .error .invalidPosition := by
  unfold record_race_result
  rw [hs]

theorem record_nonpos (st : State) (r d s : String) (p : Int)
    (hs : pyInt s = some p) (hp : p < 1) :
    record_race_result st r d s = .error .invalidPosition := by
  unfold record_race_result
  rw [hs]
  exact if_pos hp

theorem record_success (st : State) (r d s : String) (p : Int) (did : Nat) (race0 : Race)
    (hs : pyInt s = some p) (hp : 1 ≤ p)
    (hr : alookup st.race_dict r = some race0)
    (hd : alookup st.drivers_dict d = some did) :
    record_race_result st r d s = .ok (recordedState st r did p) := by
  unfold record_race_result
  rw [hs]
  simp only [hr, hd]
  rw [if_neg (by omega : ¬ p < 1)]

theorem record_unknown (st : State) (r d s : String) (p : Int)
    (hs : pyInt s = some p) (hp : 1 ≤ p)
    (h : alookup st.race_dict r = none ∨ alookup st.drivers_dict d = none) :
    record_race_result st r d s =
      .error (.unknownEntity "Invalid driver name or race name.") := by
  unfold record_race_result
  rw [hs]
  simp only [if_neg (by omega : ¬ p < 1)]
  rcases h with h | h
  · rw [h]
  · rw [h]
    cases alookup st.race_dict r <;> rfl

theorem POINT_SCALE_out_of_table (p : Int) (hp : 11 ≤ p) : POINT_SCALE p = 0 := by
  unfold POINT_SCALE
  repeat rw [if_neg (by omega)]

/-! listModify lemmas. -/

theorem length_listModify {α : Type} (l : List α) (i : Nat) (f : α → α) :
    (listModify l i f).length = l.length := by
  induction l generalizing i with
  | nil => rfl
  | cons a t ih =>
    cases i with
    | zero => rfl
    | succ i => simp [listModify, ih]

theorem getElem?_listModify {α : Type} (l : List α) (i : Nat) (f : α → α) (j : Nat) :
    (listModify l i f)[j]? = if j = i then l[j]?.map f else l[j]? := by
  induction l generalizing i j with
  | nil => simp [listModify]
  | cons a t ih =>
    cases i with
    | zero =>
      cases j with
      | zero => simp [listModify]
      | succ j => simp [listModify]
    | succ i =>
      cases j with
      | zero => simp [listModify]
      | succ j =>
        simp only [listModify, List.getElem?_cons_succ, ih]
        by_cases h : j = i <;> simp [h]

theorem mem_listModify {α : Type} {l : List α} {i : Nat} {f : α → α} {a : α}
    (h : a ∈ listModify l i f) : a ∈ l ∨ ∃ b ∈ l, a = f b := by
  induction l generalizing i with
  | nil => simp [listModify] at h
  | cons x t ih =>
    cases i with
    | zero =>
      rcases List.mem_cons.mp h with h | h
      · right; exact ⟨x, List.mem_cons_self _ _, h⟩
      · left; exact List.mem_cons_of_mem _ h
    | succ i =>
      rcases List.mem_cons.mp h with h | h
      · left; exact h ▸ List.mem_cons_self _ _
      · rcases ih h with h' | ⟨b, hb, he⟩
        · left; exact List.mem_cons_of_mem _ h'
        · right; exact ⟨b, List.mem_cons_of_mem _ hb, he⟩

/-! assignPositions lemmas. -/

theorem length_assignPositions (l : List Nat) (i : Nat) (heap : List DriverObj) :
    (assignPositions heap l i).length = heap.length := by
  induction l generalizing heap i with
  | nil => rfl
  | cons a t ih =>
    rw [assignPositions, ih, length_listModify]

theorem getElem?_assignPositions_not_mem (l : List Nat) (i j : Nat) (heap : List DriverObj)
    (h : j ∉ l) : (assignPositions heap l i)[j]? = heap[j]? := by
  induction l generalizing heap i with
  | nil => rfl
  | cons a t ih =>
    have hja : j ≠ a := fun he => h (he ▸ List.mem_cons_self _ _)
    have hjt : j ∉ t := fun hm => h (List.mem_cons_of_mem _ hm)
    rw [assignPositions, ih _ _ hjt, getElem?_listModify, if_neg hja]

theorem getElem?_assignPositions_get (l : List Nat) (heap : List DriverObj) (i : Nat)
    (hnd : l.Nodup) (k : Nat) (hk : k < l.length) :
    (assignPositions heap l i)[l.get ⟨k, hk⟩]? =
      (heap[l.get ⟨k, hk⟩]?).map (fun d => { d with position := some (i + k) }) := by
  induction l generalizing heap i k with
  | nil => exact absurd hk (Nat.not_lt_zero k)
  | cons a t ih =>
    have hat : a ∉ t := (List.nodup_cons.mp hnd).1
    have hnt : t.Nodup := (List.nodup_cons.mp hnd).2
    cases k with
    | zero =>
      rw [assignPositions]
      show (assignPositions _ t (i + 1))[a]? = _
      rw [getElem?_assignPositions_not_mem _ _ _ _ hat, getElem?_listModify, if_pos rfl]
      simp
    | succ k =>
      have hk' : k < t.length := Nat.lt_of_succ_lt_succ hk
      rw [assignPositions]
      show (assignPositions _ t (i + 1))[t.get ⟨k, hk'⟩]? = _
      rw [ih _ _ hnt k hk', getElem?_listModify]
      have hne : t.get ⟨k, hk'⟩ ≠ a := fun he => hat (he ▸ List.get_mem t k hk')
      rw [if_neg hne]
      have harith : i + 1 + k = i + (k + 1) := by omega
      rw [harith]
      rfl

theorem getD_fields_listModify (heap : List DriverObj) (idx j : Nat)
    (f : DriverObj → DriverObj)
    (hf : ∀ d, (f d).points = d.points ∧ (f d).name = d.name ∧ (f d).team = d.team) :
    ((listModify heap idx f).getD j dummyDriver).points =
        (heap.getD j dummyDriver).points ∧
      ((listModify heap idx f).getD j dummyDriver).name =
        (heap.getD j dummyDriver).name ∧
      ((listModify heap idx f).getD j dummyDriver).team =
        (heap.getD j dummyDriver).team := by
  rw [List.getD_eq_getElem?_getD, List.getD_eq_getElem?_getD, getElem?_listModify]
  by_cases h : j = idx
  · rw [if_pos h]
    cases heap[j]? with
    | none => exact ⟨rfl, rfl, rfl⟩
    | some d => simpa using hf d
  · rw [if_neg h]
    exact ⟨rfl, rfl, rfl⟩

theorem getD_fields_assignPositions (l : List Nat) (i j : Nat) (heap : List DriverObj) :
    ((assignPositions heap l i).getD j dummyDriver).points =
        (heap.getD j dummyDriver).points ∧
      ((assignPositions heap l i).getD j dummyDriver).name =
        (heap.getD j dummyDriver).name ∧
      ((assignPositions heap l i).getD j dummyDriver).team =
        (heap.getD j dummyDriver).team := by
  induction l generalizing heap i with
  | nil => exact ⟨rfl, rfl, rfl⟩
  | cons a t ih =>
    rw [assignPositions]
    have h1 := ih (i + 1)
      (listModify heap a (fun d => { d with position := some i }))
    have h2 := getD_fields_listModify heap a j
      (fun d => { d with position := some i }) (fun d => ⟨rfl, rfl, rfl⟩)
    exact ⟨h1.1.trans h2.1, h1.2.1.trans h2.2.1, h1.2.2.trans h2.2.2⟩

theorem mem_assignPositions (l : List Nat) (i : Nat) (heap : List DriverObj)
    {a : DriverObj} (h : a ∈ assignPositions heap l i) :
    ∃ b ∈ heap, a.team = b.team := by
  induction l generalizing heap i with
  | nil => exact ⟨a, h, rfl⟩
  | cons x t ih =>
    rw [assignPositions] at h
    rcases ih _ _ h with ⟨b, hb, he⟩
    rcases mem_listModify hb with hb' | ⟨c, hc, he'⟩
    · exact ⟨b, hb', he⟩
    · exact ⟨c, hc, he.trans (he' ▸ rfl)⟩

/-! Comparison relations used by the two sorts. -/

theorem driverLe_trans (st : State) (a b c : Nat) (h1 : driverLe st a b = true)
    (h2 : driverLe st b c = true) : driverLe st a c = true := by
  simp only [driverLe, decide_eq_true_eq] at h1 h2 ⊢
  omega

theorem driverLe_total (st : State) (a b : Nat) :
    (driverLe st a b || driverLe st b a) = true := by
  simp only [driverLe, Bool.or_eq_true, decide_eq_true_eq]
  omega

theorem teamLe_trans (a b c : TeamObj) (h1 : teamLe a b = true)
    (h2 : teamLe b c = true) : teamLe a c = true := by
  simp only [teamLe, decide_eq_true_eq] at h1 h2 ⊢
  omega

theorem teamLe_total (a b : TeamObj) : (teamLe a b || teamLe b a) = true := by
  simp only [teamLe, Bool.or_eq_true, decide_eq_true_eq]
  omega

/-! Structural accessors for the operations. -/

theorem add_driver_heap (st : State) (n tn : String) :
    (add_driver st n tn).heap = st.heap ++ [⟨n, tn, 0, none⟩] := by
  unfold add_driver
  by_cases ht : (alookup st.teams_dict tn).isSome <;> simp [ht]

theorem add_driver_drivers_dict (st : State) (n tn : String) :
    (add_driver st n tn).drivers_dict = upsert st.drivers_dict n st.heap.length := by
  unfold add_driver
  by_cases ht : (alookup st.teams_dict tn).isSome <;> simp [ht]

theorem add_driver_teams_dict (st : State) (n tn : String) :
    (add_driver st n tn).teams_dict =
      updateKey
        (if (alookup st.teams_dict tn).isSome then st.teams_dict
         else st.teams_dict ++ [(tn, ⟨tn, 0, []⟩)]) tn
        (fun t => { t with drivers := t.drivers ++ [st.heap.length] }) := by
  unfold add_driver
  by_cases ht : (alookup st.teams_dict tn).isSome <;> simp [ht]

theorem add_driver_race_dict (st : State) (n tn : String) :
    (add_driver st n tn).race_dict = st.race_dict := by
  unfold add_driver
  by_cases ht : (alookup st.teams_dict tn).isSome <;> simp [ht]

theorem recordedState_drivers_dict (st : State) (r : String) (did : Nat) (p : Int) :
    (recordedState st r did p).drivers_dict = st.drivers_dict := rfl

theorem recordedState_heap (st : State) (r : String) (did : Nat) (p : Int) :
    (recordedState st r did p).heap =
      listModify st.heap did (fun dr => { dr with points := dr.points + POINT_SCALE p }) :=
  rfl

theorem recordedState_teams_dict (st : State) (r : String) (did : Nat) (p : Int) :
    (recordedState st r did p).teams_dict =
      updateKey st.teams_dict (st.heap.getD did dummyDriver).team
        (fun t => { t with points := t.points + POINT_SCALE p }) :=
  rfl

theorem recordedState_race_dict (st : State) (r : String) (did : Nat) (p : Int) :
    (recordedState st r did p).race_dict =
      updateKey st.race_dict r
        (fun rc => { rc with results := rc.results ++ [⟨did, p⟩] }) :=
  rfl

theorem record_ok_inv (st : State) (r d s : String) (st' : State)
    (h : record_race_result st r d s = .ok st') :
    ∃ p did race0, pyInt s = some p ∧ 1 ≤ p ∧
      alookup st.race_dict r = some race0 ∧
      alookup st.drivers_dict d = some did ∧
      st' = recordedState st r did p := by
  cases hs : pyInt s with
  | none =>
    rw [record_parse_fail st r d s hs] at h
    exact Except.noConfusion h
  | some p =>
    by_cases hp : p < 1
    · rw [record_nonpos st r d s p hs hp] at h
      exact Except.noConfusion h
    · cases hr : alookup st.race_dict r with
      | none =>
        rw [record_unknown st r d s p hs (by omega) (Or.inl hr)] at h
        exact Except.noConfusion h
      | some race0 =>
        cases hd : alookup st.drivers_dict d with
        | none =>
          rw [record_unknown st r d s p hs (by omega) (Or.inr hd)] at h
          exact Except.noConfusion h
        | some did =>
          rw [record_success st r d s p did race0 hs (by omega) hr hd] at h
          cases h
          exact ⟨p, did, race0, rfl, by omega, rfl, rfl, rfl⟩

theorem display_driver_position_drivers_dict (st : State) :
    (display_driver_position st).1.drivers_dict = st.drivers_dict := rfl

theorem display_driver_position_teams_dict (st : State) :
    (display_driver_position st).1.teams_dict = st.teams_dict := rfl

theorem display_driver_position_race_dict (st : State) :
    (display_driver_position st).1.race_dict = st.race_dict := rfl

theorem display_driver_position_heap (st : State) :
    (display_driver_position st).1.heap =
      assignPositions st.heap
        ((st.drivers_dict.map Prod.snd).mergeSort (driverLe st)) 1 := rfl

theorem display_team_standings_state (st : State) :
    (display_team_standings st).1 = st := rfl

theorem WF_initState : WF initState := by
  constructor <;> intro x hx <;> simp [initState] at hx

theorem isSome_alookup_append_right {α : Type} (l : List (String × α)) (k : String) (v : α) :
    (alookup (l ++ [(k, v)]) k).isSome = true := by
  rw [alookup_append]
  cases alookup l k <;> simp [alookup]

theorem isSome_alookup_append_mono {α : Type} (l l₂ : List (String × α)) (k : String)
    (h : (alookup l k).isSome = true) : (alookup (l ++ l₂) k).isSome = true := by
  rw [alookup_append]
  cases halo : alookup l k with
  | none => rw [halo] at h; exact absurd h (by simp)
  | some v => rfl

theorem WF_add_race (st : State) (n : String) (h : WF st) : WF (add_race st n) := h

theorem WF_add_driver (st : State) (n tn : String) (h : WF st) :
    WF (add_driver st n tn) := by
  obtain ⟨h1, h2⟩ := h
  constructor
  · intro q hq
    rw [add_driver_drivers_dict] at hq
    rw [add_driver_heap, List.length_append]
    rcases mem_upsert hq with h' | h'
    · have := h1 q h'
      omega
    · rw [h']
      simp
  · intro dr hdr
    rw [add_driver_heap] at hdr
    rw [add_driver_teams_dict, isSome_of_alookup_updateKey]
    rcases List.mem_append.mp hdr with h' | h'
    · by_cases ht : (alookup st.teams_dict tn).isSome
      · rw [if_pos ht]
        exact h2 dr h'
      · rw [if_neg ht]
        exact isSome_alookup_append_mono _ _ _ (h2 dr h')
    · have : dr = ⟨n, tn, 0, none⟩ := by simpa using h'
      subst this
      by_cases ht : (alookup st.teams_dict tn).isSome
      · rw [if_pos ht]
        exact ht
      · rw [if_neg ht]
        exact isSome_alookup_append_right _ _ _

theorem WF_recordedState (st : State) (r : String) (did : Nat) (p : Int) (h : WF st) :
    WF (recordedState st r did p) := by
  obtain ⟨h1, h2⟩ := h
  constructor
  · intro q hq
    rw [recordedState_drivers_dict] at hq
    rw [recordedState_heap, length_listModify]
    exact h1 q hq
  · intro dr hdr
    rw [recordedState_heap] at hdr
    rw [recordedState_teams_dict, isSome_of_alookup_updateKey]
    rcases mem_listModify hdr with h' | ⟨b, hb, he⟩
    · exact h2 dr h'
    · rw [he]
      exact h2 b hb

theorem WF_display_driver_position (st : State) (h : WF st) :
    WF (display_driver_position st).1 := by
  obtain ⟨h1, h2⟩ := h
  constructor
  · intro q hq
    rw [display_driver_position_drivers_dict] at hq
    rw [display_driver_position_heap, length_assignPositions]
    exact h1 q hq
  · intro dr hdr
    rw [display_driver_position_heap] at hdr
    rw [display_driver_position_teams_dict]
    rcases mem_assignPositions _ _ _ hdr with ⟨b, hb, he⟩
    rw [he]
    exact h2 b hb

theorem WF_applyOp (st : State) (op : Op) (h : WF st) : WF (applyOp st op) := by
  cases op with
  | addDriver n tn => exact WF_add_driver st n tn h
  | addRace n => exact WF_add_race st n h
  | record r d s =>
    show WF (match record_race_result st r d s with
      | .ok st' => st'
      | .error _ => st)
    cases hrec : record_race_result st r d s with
    | ok st' =>
      rcases record_ok_inv st r d s st' hrec with ⟨p, did, race0, _, _, _, _, he⟩
      exact he ▸ WF_recordedState st r did p h
    | error e => exact h
  | displayDrivers => exact WF_display_driver_position st h
  | displayTeams => exact h

theorem WF_runOps (ops : List Op) : ∀ st, WF st → WF (runOps st ops) := by
  induction ops with
  | nil => exact fun st h => h
  | cons op rest ih => exact fun st h => ih (applyOp st op) (WF_applyOp st op h)

theorem teamPoints_add_driver (st : State) (n tn t : String) :
    teamPoints (add_driver st n tn) t = teamPoints st t := by
  unfold teamPoints
  rw [add_driver_teams_dict]
  by_cases hteq : t = tn
  · subst hteq
    rw [alookup_updateKey_self]
    by_cases ht : (alookup st.teams_dict t).isSome
    · rw [if_pos ht]
      cases halo : alookup st.teams_dict t with
      | none => rw [halo] at ht; exact absurd ht (by simp)
      | some tm => simp
    · rw [if_neg ht]
      rw [alookup_append]
      cases halo : alookup st.teams_dict t with
      | none => simp [alookup]
      | some tm => rw [halo] at ht; exact absurd (by simp) ht
  · rw [alookup_updateKey_ne _ _ _ _ hteq]
    by_cases ht : (alookup st.teams_dict tn).isSome
    · rw [if_pos ht]
    · rw [if_neg ht]
      rw [alookup_append]
      have hne : ¬ tn = t := fun he => hteq he.symm
      have halo2 : alookup [(tn, (⟨tn, 0, []⟩ : TeamObj))] t = none := by
        simp [alookup, hne]
      rw [halo2]
      cases alookup st.teams_dict t <;> rfl

theorem teamPoints_recordedState (st : State) (r : String) (did : Nat) (p : Int)
    (t : String) (hsome : (alookup st.teams_dict (st.heap.getD did dummyDriver).team).isSome = true) :
    teamPoints (recordedState st r did p) t =
      teamPoints st t +
        (if (st.heap.getD did dummyDriver).team = t then POINT_SCALE p else 0) := by
  unfold teamPoints
  rw [recordedState_teams_dict]
  by_cases hteq : t = (st.heap.getD did dummyDriver).team
  · subst hteq
    rw [if_pos rfl, alookup_updateKey_self]
    cases halo : alookup st.teams_dict (st.heap.getD did dummyDriver).team with
    | none => rw [halo] at hsome; exact absurd hsome (by simp)
    | some tm => rfl
  · rw [if_neg (fun he => hteq he.symm), Nat.add_zero,
      alookup_updateKey_ne _ _ _ _ hteq]

theorem teamPoints_applyOp (st : State) (t : String) (op : Op) (h : WF st) :
    teamPoints (applyOp st op) t = teamPoints st t + awardedTo st t op := by
  cases op with
  | addDriver n tn =>
    show teamPoints (add_driver st n tn) t = teamPoints st t + 0
    rw [Nat.add_zero, teamPoints_add_driver]
  | addRace n => rfl
  | displayDrivers => rfl
  | displayTeams => rfl
  | record r d s =>
    show teamPoints (match record_race_result st r d s with
        | .ok st' => st'
        | .error _ => st) t = _
    cases hs : pyInt s with
    | none =>
      rw [record_parse_fail st r d s hs]
      simp only [awardedTo, hs, Nat.add_zero]
    | some p =>
      by_cases hp : p < 1
      · rw [record_nonpos st r d s p hs hp]
        simp only [awardedTo, hs, if_pos hp, Nat.add_zero]
      · cases hr : alookup st.race_dict r with
        | none =>
          rw [record_unknown st r d s p hs (by omega) (Or.inl hr)]
          simp only [awardedTo, hs, if_neg hp, hr, Nat.add_zero]
        | some race0 =>
          cases hd : alookup st.drivers_dict d with
          | none =>
            rw [record_unknown st r d s p hs (by omega) (Or.inr hd)]
            simp only [awardedTo, hs, if_neg hp, hr, hd, Nat.add_zero]
          | some did =>
            rw [record_success st r d s p did race0 hs (by omega) hr hd]
            have hlt : did < st.heap.length := h.1 (d, did) (alookup_mem hd)
            have hmem : st.heap.getD did dummyDriver ∈ st.heap := by
              rw [List.getD_eq_getElem?_getD, List.getElem?_eq_getElem hlt]
              exact List.getElem_mem hlt
            have hsome := h.2 _ hmem
            rw [teamPoints_recordedState st r did p t hsome]
            simp only [awardedTo, hs, if_neg hp, hr, hd]

theorem teamPoints_runOps (ops : List Op) : ∀ st, WF st → ∀ t,
    teamPoints (runOps st ops) t = teamPoints st t + totalAwarded st t ops := by
  induction ops with
  | nil => intro st h t; rw [runOps, totalAwarded, Nat.add_zero]
  | cons op rest ih =>
    intro st h t
    rw [runOps, totalAwarded, ih (applyOp st op) (WF_applyOp st op h) t,
      teamPoints_applyOp st t op h]
    omega

theorem heap_points_recordedState_self (st : State) (r : String) (did : Nat) (p : Int)
    (h : did < st.heap.length) :
    ((recordedState st r did p).heap.getD did dummyDriver).points =
      (st.heap.getD did dummyDriver).points + POINT_SCALE p := by
  rw [recordedState_heap, List.getD_eq_getElem?_getD, List.getD_eq_getElem?_getD,
    getElem?_listModify, if_pos rfl, List.getElem?_eq_getElem h]
  rfl

theorem heap_recordedState_ne (st : State) (r : String) (did : Nat) (p : Int) (j : Nat)
    (h : j ≠ did) :
    (recordedState st r did p).heap.getD j dummyDriver =
      st.heap.getD j dummyDriver := by
  rw [recordedState_heap, List.getD_eq_getElem?_getD, List.getD_eq_getElem?_getD,
    getElem?_listModify, if_neg h]

theorem race_results_recordedState (st : State) (r : String) (did : Nat) (p : Int)
    (race0 : Race) (hr : alookup st.race_dict r = some race0) :
    alookup (recordedState st r did p).race_dict r =
      some { race0 with results := race0.results ++ [⟨did, p⟩] } := by
  rw [recordedState_race_dict, alookup_updateKey_self, hr]
  rfl

theorem alookup_ne_of_nodup {α : Type} (l : List (String × α))
    (hnd : (l.map Prod.snd).Nodup) (k1 k2 : String) (v1 v2 : α) (hk : k1 ≠ k2)
    (h1 : alookup l k1 = some v1) (h2 : alookup l k2 = some v2) : v1 ≠ v2 := by
  induction l with
  | nil => exact absurd h1 (by simp [alookup])
  | cons q t ih =>
    obtain ⟨k0, v0⟩ := q
    rw [List.map_cons, List.nodup_cons] at hnd
    by_cases hq1 : k0 = k1
    · rw [alookup, if_pos hq1] at h1
      cases h1
      rw [alookup, if_neg (fun he : k0 = k2 => hk (hq1 ▸ he))] at h2
      have hv2 : v2 ∈ t.map Prod.snd := List.mem_map.mpr ⟨(k2, v2), alookup_mem h2, rfl⟩
      exact fun he => hnd.1 (he ▸ hv2)
    · by_cases hq2 : k0 = k2
      · rw [alookup, if_pos hq2] at h2
        cases h2
        rw [alookup, if_neg hq1] at h1
        have hv1 : v1 ∈ t.map Prod.snd := List.mem_map.mpr ⟨(k1, v1), alookup_mem h1, rfl⟩
        exact fun he => hnd.1 (he ▸ hv1)
      · rw [alookup, if_neg hq1] at h1
        rw [alookup, if_neg hq2] at h2
        exact ih hnd.2 h1 h2

theorem runRecords_points (cmds : List (String × String × String)) :
    ∀ st st', runRecords st cmds = .ok st' →
      (st.drivers_dict.map Prod.snd).Nodup →
      (∀ q ∈ st.drivers_dict, q.2 < st.heap.length) →
      ∀ dn did, alookup st.drivers_dict dn = some did →
        (st'.heap.getD did dummyDriver).points =
          (st.heap.getD did dummyDriver).points + sumPointsFor dn cmds := by
  induction cmds with
  | nil =>
    intro st st' h hnd hb dn did hdn
    cases h
    rw [sumPointsFor, Nat.add_zero]
  | cons cmd rest ih =>
    obtain ⟨r, d, s⟩ := cmd
    intro st st' h hnd hb dn did hdn
    rw [runRecords] at h
    cases hrec : record_race_result st r d s with
    | error e =>
      rw [hrec] at h
      exact Except.noConfusion h
    | ok st1 =>
      rw [hrec] at h
      rcases record_ok_inv st r d s st1 hrec with ⟨p, did', race0, hs, hp, hr, hd, he⟩
      subst he
      have hnd1 : ((recordedState st r did' p).drivers_dict.map Prod.snd).Nodup := by
        rw [recordedState_drivers_dict]; exact hnd
      have hb1 : ∀ q ∈ (recordedState st r did' p).drivers_dict,
          q.2 < (recordedState st r did' p).heap.length := by
        rw [recordedState_drivers_dict, recordedState_heap, length_listModify]
        exact hb
      have hdn1 : alookup (recordedState st r did' p).drivers_dict dn = some did := by
        rw [recordedState_drivers_dict]; exact hdn
      rw [ih (recordedState st r did' p) st' h hnd1 hb1 dn did hdn1, sumPointsFor]
      by_cases hddn : d = dn
      · subst hddn
        have hde : did' = did := by
          rw [hd] at hdn
          cases hdn
          rfl
        subst hde
        rw [heap_points_recordedState_self st r did' p (hb _ (alookup_mem hd))]
        simp only [hs, eq_self_iff_true, if_true]
        omega
      · have hne : did ≠ did' :=
          alookup_ne_of_nodup st.drivers_dict hnd dn d did did'
            (fun he => hddn he.symm) hdn hd
        rw [heap_recordedState_ne st r did' p did hne, if_neg hddn]
        omega

theorem display_driver_position_out (st : State) :
    (display_driver_position st).2 =
      (st.drivers_dict.map Prod.snd).mergeSort (driverLe st) := rfl

theorem ranked_map_snd {α : Type} (l : List α) :
    (l.enum.map (fun q => (q.1 + 1, q.2))).map Prod.snd = l := by
  rw [List.map_map]
  exact List.enum_map_snd l

theorem ranked_map_fst {α : Type} (l : List α) :
    (l.enum.map (fun q => (q.1 + 1, q.2))).map Prod.fst =
      (List.range l.length).map (· + 1) := by
  rw [List.map_map, ← List.enum_map_fst l, List.map_map]
  rfl

/-! Claim theorems. -/

/-- C2: record_result fails with InvalidPosition when the position is 0 or
a non-numeric string, and with UnknownEntity when the race name or driver
name is not registered; in every such failure case the whole state (all
points and result sequences) is left unchanged. -/
theorem record_error_atomic (st : State) (r d : String) :
    (∀ s, pyInt s = none →
      record_race_result st r d s = .error .invalidPosition ∧
        applyOp st (.record r d s) = st) ∧
    (∀ s, pyInt s = some 0 →
      record_race_result st r d s = .error .invalidPosition ∧
        applyOp st (.record r d s) = st) ∧
    (∀ s p, pyInt s = some p → 1 ≤ p →
      (alookup st.race_dict r = none ∨ alookup st.drivers_dict d = none) →
      record_race_result st r d s =
          .error (.unknownEntity "Invalid driver name or race name.") ∧
        applyOp st (.record r d s) = st) := by
  refine ⟨fun s hs => ?_, fun s hs => ?_, fun s p hs hp h => ?_⟩
  · have herr := record_parse_fail st r d s hs
    refine ⟨herr, ?_⟩
    show (match record_race_result st r d s with
      | .ok st' => st'
      | .error _ => st) = st
    rw [herr]
  · have herr := record_nonpos st r d s 0 hs (by omega)
    refine ⟨herr, ?_⟩
    show (match record_race_result st r d s with
      | .ok st' => st'
      | .error _ => st) = st
    rw [herr]
  · have herr := record_unknown st r d s p hs hp h
    refine ⟨herr, ?_⟩
    show (match record_race_result st r d s with
      | .ok st' => st'
      | .error _ => st) = st
    rw [herr]

/-- Witness for C2 at a concrete state: Alice/Ferrari registered, race
Monza absent; a non-numeric position, position 0, and an unknown race all
fail with the corresponding error. -/
theorem record_error_atomic_witness :
    pyInt "abc" = none ∧ pyInt "0" = some 0 ∧ pyInt "1" = some 1 ∧ (1 : Int) ≤ 1 ∧
    alookup stDriverOnly.race_dict "Monza" = none ∧
    (record_race_result stDriverOnly "Monza" "Alice" "abc" =
        .error .invalidPosition ∧
      applyOp stDriverOnly (.record "Monza" "Alice" "abc") = stDriverOnly) ∧
    (record_race_result stDriverOnly "Monza" "Alice" "0" =
        .error .invalidPosition ∧
      applyOp stDriverOnly (.record "Monza" "Alice" "0") = stDriverOnly) ∧
    (record_race_result stDriverOnly "Monza" "Alice" "1" =
        .error (.unknownEntity "Invalid driver name or race name.") ∧
      applyOp stDriverOnly (.record "Monza" "Alice" "1") = stDriverOnly) := by
  refine ⟨by decide, by decide, by decide, by decide, by decide, ?_, ?_, ?_⟩
  · exact (record_error_atomic stDriverOnly "Monza" "Alice").1 "abc" (by decide)
  · exact (record_error_atomic stDriverOnly "Monza" "Alice").2.1 "0" (by decide)
  · exact (record_error_atomic stDriverOnly "Monza" "Alice").2.2 "1" 1 (by decide)
      (by decide) (Or.inl (by decide))

/-- C8 counterexample: the UnknownEntity failure does not name which of
race/driver was missing.  In stRaceOnly the race exists and the driver is
unknown; in stDriverOnly the driver exists and the race is unknown; both
calls report the identical error value, carrying the single fixed message
the source prints, so the error cannot identify the missing entity. -/
theorem unknown_entity_error_not_naming :
    record_race_result stRaceOnly "Monza" "Bob" "1" =
        .error (.unknownEntity "Invalid driver name or race name.") ∧
      record_race_result stDriverOnly "Monza" "Alice" "1" =
        .error (.unknownEntity "Invalid driver name or race name.") ∧
      record_race_result stRaceOnly "Monza" "Bob" "1" =
        record_race_result stDriverOnly "Monza" "Alice" "1" :=
  ⟨rfl, rfl, rfl⟩

/-- C8 amended: when record_result fails because the race or the driver is
not registered, it reports UnknownEntity with the one fixed message
"Invalid driver name or race name.", identical in both cases, which does
not identify which of the two was missing. -/
theorem unknown_entity_fixed_message (st : State) (r d s : String) (p : Int)
    (hs : pyInt s = some p) (hp : 1 ≤ p)
    (h : alookup st.race_dict r = none ∨ alookup st.drivers_dict d = none) :
    record_race_result st r d s =
      .error (.unknownEntity "Invalid driver name or race name.") :=
  record_unknown st r d s p hs hp h

/-- Witness for the amended C8 at a concrete state with the race missing. -/
theorem unknown_entity_fixed_message_witness :
    pyInt "1" = some 1 ∧ (1 : Int) ≤ 1 ∧
    alookup stDriverOnly.race_dict "Monza" = none ∧
    record_race_result stDriverOnly "Monza" "Alice" "1" =
      .error (.unknownEntity "Invalid driver name or race name.") :=
  ⟨by decide, by decide, by decide,
    unknown_entity_fixed_message stDriverOnly "Monza" "Alice" "1" 1 (by decide)
      (by decide) (Or.inl (by decide))⟩

/-- C5: a successful record_result changes exactly one race (one result
appended), one driver (scoring-table points added) and that driver's team
(same points added); every other race, driver id and team, and the driver
registry itself, are unchanged. -/
theorem record_frame (st : State) (r d s : String) (p : Int) (did : Nat)
    (d0 : DriverObj) (race0 : Race)
    (hs : pyInt s = some p) (hp : 1 ≤ p)
    (hr : alookup st.race_dict r = some race0)
    (hd : alookup st.drivers_dict d = some did)
    (hdid : st.heap[did]? = some d0) :
    ∃ st', record_race_result st r d s = .ok st' ∧
      st'.drivers_dict = st.drivers_dict ∧
      alookup st'.race_dict r =
        some { race0 with results := race0.results ++ [⟨did, p⟩] } ∧
      (∀ r', r' ≠ r → alookup st'.race_dict r' = alookup st.race_dict r') ∧
      st'.heap[did]? = some { d0 with points := d0.points + POINT_SCALE p } ∧
      (∀ j, j ≠ did → st'.heap[j]? = st.heap[j]?) ∧
      alookup st'.teams_dict d0.team =
        (alookup st.teams_dict d0.team).map
          (fun t => { t with points := t.points + POINT_SCALE p }) ∧
      (∀ t', t' ≠ d0.team → alookup st'.teams_dict t' = alookup st.teams_dict t') := by
  have hgd : st.heap.getD did dummyDriver = d0 := by
    rw [List.getD_eq_getElem?_getD, hdid]
    rfl
  refine ⟨recordedState st r did p, record_success st r d s p did race0 hs hp hr hd,
    rfl, race_results_recordedState st r did p race0 hr, ?_, ?_, ?_, ?_, ?_⟩
  · intro r' hne
    rw [recordedState_race_dict, alookup_updateKey_ne _ _ _ _ hne]
  · rw [recordedState_heap, getElem?_listModify, if_pos rfl, hdid]
    rfl
  · intro j hne
    rw [recordedState_heap, getElem?_listModify, if_neg hne]
  · rw [recordedState_teams_dict, hgd, alookup_updateKey_self]
  · intro t' hne
    rw [recordedState_teams_dict, hgd, alookup_updateKey_ne _ _ _ _ hne]

/-- Witness for C5: recording A in position 3 on R1 after the two earlier
results appends one result, adds 15 points to A and T1, and leaves B, T2
and all other entries unchanged. -/
theorem record_frame_witness :
    pyInt "3" = some 3 ∧ (1 : Int) ≤ 3 ∧
    alookup stScn.race_dict "R1" = some ⟨"R1", [⟨0, 1⟩, ⟨1, 2⟩]⟩ ∧
    alookup stScn.drivers_dict "A" = some 0 ∧
    stScn.heap[0]? = some ⟨"A", "T1", 25, none⟩ ∧
    (∃ st', record_race_result stScn "R1" "A" "3" = .ok st' ∧
      st'.drivers_dict = stScn.drivers_dict ∧
      alookup st'.race_dict "R1" = some ⟨"R1", [⟨0, 1⟩, ⟨1, 2⟩, ⟨0, 3⟩]⟩ ∧
      (∀ r', r' ≠ "R1" → alookup st'.race_dict r' = alookup stScn.race_dict r') ∧
      st'.heap[0]? = some ⟨"A", "T1", 40, none⟩ ∧
      (∀ j, j ≠ 0 → st'.heap[j]? = stScn.heap[j]?) ∧
      alookup st'.teams_dict "T1" =
        (alookup stScn.teams_dict "T1").map
          (fun t => { t with points := t.points + POINT_SCALE 3 }) ∧
      (∀ t', t' ≠ "T1" →
        alookup st'.teams_dict t' = alookup stScn.teams_dict t')) :=
  ⟨by decide, by decide, by decide, by decide, by decide,
    record_frame stScn "R1" "A" "3" 3 0 ⟨"A", "T1", 25, none⟩
      ⟨"R1", [⟨0, 1⟩, ⟨1, 2⟩]⟩ (by decide) (by decide) (by decide) (by decide)
      (by decide)⟩

/-- C7: record_result is not idempotent: two successful calls with the
same race, driver and position append two results to the race and add the
scoring-table points twice to the driver and to its team. -/
theorem record_not_idempotent (st : State) (r d s : String) (p : Int) (did : Nat)
    (d0 : DriverObj) (race0 : Race) (tm0 : TeamObj)
    (hs : pyInt s = some p) (hp : 1 ≤ p)
    (hr : alookup st.race_dict r = some race0)
    (hd : alookup st.drivers_dict d = some did)
    (hdid : st.heap[did]? = some d0)
    (htm : alookup st.teams_dict d0.team = some tm0) :
    ∃ st1 st2,
      record_race_result st r d s = .ok st1 ∧
      record_race_result st1 r d s = .ok st2 ∧
      st2.heap[did]? = some { d0 with points := d0.points + 2 * POINT_SCALE p } ∧
      alookup st2.teams_dict d0.team =
        some { tm0 with points := tm0.points + 2 * POINT_SCALE p } ∧
      alookup st2.race_dict r =
        some { race0 with results := race0.results ++ [⟨did, p⟩, ⟨did, p⟩] } := by
  have hgd : st.heap.getD did dummyDriver = d0 := by
    rw [List.getD_eq_getElem?_getD, hdid]
    rfl
  have h1heap : (recordedState st r did p).heap[did]? =
      some { d0 with points := d0.points + POINT_SCALE p } := by
    rw [recordedState_heap, getElem?_listModify, if_pos rfl, hdid]
    rfl
  have h1gd : (recordedState st r did p).heap.getD did dummyDriver =
      { d0 with points := d0.points + POINT_SCALE p } := by
    rw [List.getD_eq_getElem?_getD, h1heap]
    rfl
  have h1r : alookup (recordedState st r did p).race_dict r =
      some { race0 with results := race0.results ++ [⟨did, p⟩] } :=
    race_results_recordedState st r did p race0 hr
  have h1d : alookup (recordedState st r did p).drivers_dict d = some did := by
    rw [recordedState_drivers_dict]
    exact hd
  have h1tm : alookup (recordedState st r did p).teams_dict d0.team =
      some { tm0 with points := tm0.points + POINT_SCALE p } := by
    rw [recordedState_teams_dict, hgd, alookup_updateKey_self, htm]
    rfl
  refine ⟨recordedState st r did p,
    recordedState (recordedState st r did p) r did p,
    record_success st r d s p did race0 hs hp hr hd,
    record_success _ r d s p did _ hs hp h1r h1d, ?_, ?_, ?_⟩
  · have h2 : d0.points + POINT_SCALE p + POINT_SCALE p =
        d0.points + 2 * POINT_SCALE p := by omega
    rw [recordedState_heap, getElem?_listModify, if_pos rfl, h1heap, ← h2]
    rfl
  · have h3 : tm0.points + POINT_SCALE p + POINT_SCALE p =
        tm0.points + 2 * POINT_SCALE p := by omega
    rw [recordedState_teams_dict, h1gd]
    rw [show ({ d0 with points := d0.points + POINT_SCALE p } : DriverObj).team =
      d0.team from rfl]
    rw [alookup_updateKey_self, h1tm, ← h3]
    rfl
  · have h4 : race0.results ++ [(⟨did, p⟩ : RaceResult), ⟨did, p⟩] =
        (race0.results ++ [⟨did, p⟩]) ++ [⟨did, p⟩] := by
      rw [List.append_assoc]
      rfl
    rw [recordedState_race_dict, alookup_updateKey_self, h1r, h4]
    rfl

/-- Witness for C7: recording B in position 5 on R1 twice takes B from 18
to 38 points, T2 from 18 to 38, and appends the result twice. -/
theorem record_not_idempotent_witness :
    pyInt "5" = some 5 ∧ (1 : Int) ≤ 5 ∧
    alookup stScn.race_dict "R1" = some ⟨"R1", [⟨0, 1⟩, ⟨1, 2⟩]⟩ ∧
    alookup stScn.drivers_dict "B" = some 1 ∧
    stScn.heap[1]? = some ⟨"B", "T2", 18, none⟩ ∧
    alookup stScn.teams_dict "T2" = some ⟨"T2", 18, [1]⟩ ∧
    (∃ st1 st2,
      record_race_result stScn "R1" "B" "5" = .ok st1 ∧
      record_race_result st1 "R1" "B" "5" = .ok st2 ∧
      st2.heap[1]? = some ⟨"B", "T2", 38, none⟩ ∧
      alookup st2.teams_dict "T2" = some ⟨"T2", 38, [1]⟩ ∧
      alookup st2.race_dict "R1" =
        some ⟨"R1", [⟨0, 1⟩, ⟨1, 2⟩, ⟨1, 5⟩, ⟨1, 5⟩]⟩) :=
  ⟨by decide, by decide, by decide, by decide, by decide, by decide,
    record_not_idempotent stScn "R1" "B" "5" 5 1 ⟨"B", "T2", 18, none⟩
      ⟨"R1", [⟨0, 1⟩, ⟨1, 2⟩]⟩ ⟨"T2", 18, [1]⟩ (by decide) (by decide) (by decide)
      (by decide) (by decide) (by decide)⟩

/-- C9: re-registering an existing driver name on its team stores a fresh
zero-point, null-position Driver under the name (the prior object is left
in the heap but no longer reachable from the registry, its points not
transferred), and appends the fresh driver to the team roster, which then
holds two entries carrying that name. -/
theorem add_driver_reregister (st : State) (n t : String) (oldId : Nat)
    (oldD : DriverObj) (tm : TeamObj)
    (hd : alookup st.drivers_dict n = some oldId)
    (hheap : st.heap[oldId]? = some oldD)
    (hname : oldD.name = n) (hteam : oldD.team = t)
    (htm : alookup st.teams_dict t = some tm)
    (hmem : oldId ∈ tm.drivers) :
    (add_driver st n t).heap[st.heap.length]? = some ⟨n, t, 0, none⟩ ∧
    alookup (add_driver st n t).drivers_dict n = some st.heap.length ∧
    (add_driver st n t).heap[oldId]? = some oldD ∧
    alookup (add_driver st n t).teams_dict t =
      some { tm with drivers := tm.drivers ++ [st.heap.length] } ∧
    oldId ≠ st.heap.length ∧
    oldId ∈ tm.drivers ++ [st.heap.length] ∧
    st.heap.length ∈ tm.drivers ++ [st.heap.length] ∧
    ((add_driver st n t).heap[oldId]?).map DriverObj.name = some n ∧
    ((add_driver st n t).heap[st.heap.length]?).map DriverObj.name = some n := by
  have hlt : oldId < st.heap.length := (List.getElem?_eq_some.mp hheap).1
  have hts : (alookup st.teams_dict t).isSome := by
    rw [htm]
    rfl
  have hnew : (add_driver st n t).heap[st.heap.length]? = some ⟨n, t, 0, none⟩ := by
    rw [add_driver_heap, List.getElem?_concat_length]
  have hold : (add_driver st n t).heap[oldId]? = some oldD := by
    rw [add_driver_heap, List.getElem?_append, if_pos hlt]
    exact hheap
  refine ⟨hnew, ?_, hold, ?_, by omega, ?_, ?_, ?_, ?_⟩
  · rw [add_driver_drivers_dict, alookup_upsert_self]
  · rw [add_driver_teams_dict, if_pos hts, alookup_updateKey_self, htm]
    rfl
  · exact List.mem_append_left _ hmem
  · exact List.mem_append_right _ (List.mem_singleton.mpr rfl)
  · rw [hold]
    show some oldD.name = some n
    rw [hname]
  · rw [hnew]
    rfl

/-- Witness for C9: re-registering Alice on Ferrari creates driver object
1, leaves object 0 with its points, and duplicates Alice on the roster. -/
theorem add_driver_reregister_witness :
    alookup stDriverOnly.drivers_dict "Alice" = some 0 ∧
    stDriverOnly.heap[0]? = some ⟨"Alice", "Ferrari", 0, none⟩ ∧
    alookup stDriverOnly.teams_dict "Ferrari" = some ⟨"Ferrari", 0, [0]⟩ ∧
    (0 : Nat) ∈ [0] ∧
    ((add_driver stDriverOnly "Alice" "Ferrari").heap[1]? =
        some ⟨"Alice", "Ferrari", 0, none⟩ ∧
      alookup (add_driver stDriverOnly "Alice" "Ferrari").drivers_dict "Alice" =
        some 1 ∧
      (add_driver stDriverOnly "Alice" "Ferrari").heap[0]? =
        some ⟨"Alice", "Ferrari", 0, none⟩ ∧
      alookup (add_driver stDriverOnly "Alice" "Ferrari").teams_dict "Ferrari" =
        some ⟨"Ferrari", 0, [0, 1]⟩ ∧
      (0 : Nat) ≠ 1 ∧
      (0 : Nat) ∈ [0, 1] ∧
      (1 : Nat) ∈ [0, 1] ∧
      ((add_driver stDriverOnly "Alice" "Ferrari").heap[0]?).map DriverObj.name =
        some "Alice" ∧
      ((add_driver stDriverOnly "Alice" "Ferrari").heap[1]?).map DriverObj.name =
        some "Alice") :=
  ⟨by decide, by decide, by decide, by decide,
    add_driver_reregister stDriverOnly "Alice" "Ferrari" 0
      ⟨"Alice", "Ferrari", 0, none⟩ ⟨"Ferrari", 0, [0]⟩ (by decide) (by decide)
      (by decide) (by decide) (by decide) (by decide)⟩

/-- C1: along any sequence of successful record_result calls with
positions in 1..10, each driver's cumulative points grow by exactly the
sum of the scoring-table values at the positions recorded for that driver;
and a successful call with a position beyond the table (11 or more) still
appends the result to the race while adding exactly 0 points. -/
theorem record_points_sum :
    (∀ (st : State) (cmds : List (String × String × String)) (st' : State),
      runRecords st cmds = .ok st' →
      (∀ c ∈ cmds, ∃ p, pyInt c.2.2 = some p ∧ 1 ≤ p ∧ p ≤ 10) →
      (st.drivers_dict.map Prod.snd).Nodup →
      (∀ q ∈ st.drivers_dict, q.2 < st.heap.length) →
      ∀ dn did, alookup st.drivers_dict dn = some did →
        (st'.heap.getD did dummyDriver).points =
          (st.heap.getD did dummyDriver).points + sumPointsFor dn cmds) ∧
    (∀ (st : State) (r d s : String) (p : Int) (did : Nat) (d0 : DriverObj)
      (race0 : Race),
      pyInt s = some p → 11 ≤ p →
      alookup st.race_dict r = some race0 →
      alookup st.drivers_dict d = some did →
      st.heap[did]? = some d0 →
      ∃ st', record_race_result st r d s = .ok st' ∧
        alookup st'.race_dict r =
          some { race0 with results := race0.results ++ [⟨did, p⟩] } ∧
        st'.heap[did]? = some d0) := by
  constructor
  · exact fun st cmds st' h _ hnd hb dn did hdn =>
      runRecords_points cmds st st' h hnd hb dn did hdn
  · intro st r d s p did d0 race0 hs hp hr hd hdid
    refine ⟨recordedState st r did p,
      record_success st r d s p did race0 hs (by omega) hr hd,
      race_results_recordedState st r did p race0 hr, ?_⟩
    rw [recordedState_heap, getElem?_listModify, if_pos rfl, hdid,
      POINT_SCALE_out_of_table p hp]
    rfl

/-- Witness for C1: recording A first and B second from stSetup gives A
exactly 25 = POINT_SCALE 1 points, and a further successful recording of A
at position 11 appends the result while leaving the points at 25. -/
theorem record_points_sum_witness :
    (runRecords stSetup recCmds = .ok stScn ∧
      (∀ c ∈ recCmds, ∃ p, pyInt c.2.2 = some p ∧ 1 ≤ p ∧ p ≤ 10) ∧
      (stSetup.drivers_dict.map Prod.snd).Nodup ∧
      (∀ q ∈ stSetup.drivers_dict, q.2 < stSetup.heap.length) ∧
      alookup stSetup.drivers_dict "A" = some 0 ∧
      (stScn.heap.getD 0 dummyDriver).points =
        (stSetup.heap.getD 0 dummyDriver).points + sumPointsFor "A" recCmds) ∧
    (pyInt "11" = some 11 ∧ (11 : Int) ≤ 11 ∧
      alookup stScn.race_dict "R1" = some ⟨"R1", [⟨0, 1⟩, ⟨1, 2⟩]⟩ ∧
      alookup stScn.drivers_dict "A" = some 0 ∧
      stScn.heap[0]? = some ⟨"A", "T1", 25, none⟩ ∧
      ∃ st', record_race_result stScn "R1" "A" "11" = .ok st' ∧
        alookup st'.race_dict "R1" = some ⟨"R1", [⟨0, 1⟩, ⟨1, 2⟩, ⟨0, 11⟩]⟩ ∧
        st'.heap[0]? = some ⟨"A", "T1", 25, none⟩) := by
  have h10 : ∀ c ∈ recCmds, ∃ p, pyInt c.2.2 = some p ∧ 1 ≤ p ∧ p ≤ 10 := by
    intro c hc
    simp only [recCmds, List.mem_cons, List.not_mem_nil, or_false] at hc
    rcases hc with h | h
    · subst h
      exact ⟨1, by decide, by decide, by decide⟩
    · subst h
      exact ⟨2, by decide, by decide, by decide⟩
  refine ⟨⟨rfl, h10, by decide, by decide, by decide, ?_⟩,
    by decide, by decide, by decide, by decide, by decide, ?_⟩
  · exact record_points_sum.1 stSetup recCmds stScn rfl h10 (by decide)
      (by decide) "A" 0 (by decide)
  · exact record_points_sum.2 stScn "R1" "A" "11" 11 0 ⟨"A", "T1", 25, none⟩
      ⟨"R1", [⟨0, 1⟩, ⟨1, 2⟩]⟩ (by decide) (by decide) (by decide) (by decide)
      (by decide)

/-- C4: in every state reached from startup by a trace of core operations
(registration, result recording, standings queries, with each recorded
result applied exactly once), each registered team's cumulative points
equal the total points awarded by successful recordings to drivers
belonging to that team. -/
theorem team_points_invariant (ops : List Op) (t : String) (tm : TeamObj)
    (h : alookup (runOps initState ops).teams_dict t = some tm) :
    tm.points = totalAwarded initState t ops := by
  have hrun := teamPoints_runOps ops initState WF_initState t
  unfold teamPoints at hrun
  rw [h] at hrun
  simpa [initState, alookup] using hrun

/-- Witness for C4: after registering A on T1, adding race R1 and
recording A first, team T1 holds 25 points, the total awarded to it. -/
theorem team_points_invariant_witness :
    alookup (runOps initState
        [.addDriver "A" "T1", .addRace "R1", .record "R1" "A" "1"]).teams_dict
      "T1" = some ⟨"T1", 25, [0]⟩ ∧
    (25 : Nat) = totalAwarded initState "T1"
      [.addDriver "A" "T1", .addRace "R1", .record "R1" "A" "1"] :=
  ⟨by decide,
    team_points_invariant [.addDriver "A" "T1", .addRace "R1", .record "R1" "A" "1"]
      "T1" ⟨"T1", 25, [0]⟩ (by decide)⟩

/-- C3: display_driver_position returns all registered drivers in
non-increasing order of cumulative points, assigns position 1..N to the
returned drivers in that order, and returns the empty sequence for an
empty registry; the position assignment is its only side effect: the
three registries are untouched, the driver store keeps its length, and
every driver object keeps its points, name and team. -/
theorem display_driver_position_spec (st : State)
    (hnd : (st.drivers_dict.map Prod.snd).Nodup)
    (hb : ∀ q ∈ st.drivers_dict, q.2 < st.heap.length) :
    ((display_driver_position st).2).Perm (st.drivers_dict.map Prod.snd) ∧
    ((display_driver_position st).2).Pairwise
      (fun i j => ((display_driver_position st).1.heap.getD j dummyDriver).points ≤
        ((display_driver_position st).1.heap.getD i dummyDriver).points) ∧
    (∀ k (hk : k < (display_driver_position st).2.length),
      ((display_driver_position st).1.heap.getD
          ((display_driver_position st).2.get ⟨k, hk⟩) dummyDriver).position =
        some (k + 1)) ∧
    (st.drivers_dict = [] → (display_driver_position st).2 = []) ∧
    (display_driver_position st).1.drivers_dict = st.drivers_dict ∧
    (display_driver_position st).1.teams_dict = st.teams_dict ∧
    (display_driver_position st).1.race_dict = st.race_dict ∧
    (display_driver_position st).1.heap.length = st.heap.length ∧
    (∀ j, ((display_driver_position st).1.heap.getD j dummyDriver).points =
        (st.heap.getD j dummyDriver).points ∧
      ((display_driver_position st).1.heap.getD j dummyDriver).name =
        (st.heap.getD j dummyDriver).name ∧
      ((display_driver_position st).1.heap.getD j dummyDriver).team =
        (st.heap.getD j dummyDriver).team) := by
  have hnd_out : ((st.drivers_dict.map Prod.snd).mergeSort (driverLe st)).Nodup :=
    (List.mergeSort_perm (st.drivers_dict.map Prod.snd) (driverLe st)).symm.nodup hnd
  refine ⟨List.mergeSort_perm _ _, ?_, ?_, ?_, rfl, rfl, rfl, ?_,
    fun j => getD_fields_assignPositions
      ((st.drivers_dict.map Prod.snd).mergeSort (driverLe st)) 1 j st.heap⟩
  · have hp := List.sorted_mergeSort (driverLe_trans st) (driverLe_total st)
      (st.drivers_dict.map Prod.snd)
    refine List.Pairwise.imp ?_ hp
    intro a b hab
    have h1 := (getD_fields_assignPositions
      ((st.drivers_dict.map Prod.snd).mergeSort (driverLe st)) 1 b st.heap).1
    have h2 := (getD_fields_assignPositions
      ((st.drivers_dict.map Prod.snd).mergeSort (driverLe st)) 1 a st.heap).1
    rw [display_driver_position_heap, h1, h2]
    simpa only [driverLe, decide_eq_true_eq] using hab
  · intro k hk
    have hmain : (display_driver_position st).1.heap[
        (display_driver_position st).2.get ⟨k, hk⟩]? =
        (st.heap[(display_driver_position st).2.get ⟨k, hk⟩]?).map
          (fun d0 => { d0 with position := some (1 + k) }) :=
      getElem?_assignPositions_get _ st.heap 1 hnd_out k hk
    have hjmem : (display_driver_position st).2.get ⟨k, hk⟩ ∈
        st.drivers_dict.map Prod.snd :=
      (List.mergeSort_perm (st.drivers_dict.map Prod.snd)
        (driverLe st)).mem_iff.mp (List.get_mem _ k hk)
    rcases List.mem_map.mp hjmem with ⟨q, hq, he⟩
    have hjlt : (display_driver_position st).2.get ⟨k, hk⟩ < st.heap.length :=
      he ▸ hb q hq
    rw [List.getD_eq_getElem?_getD, hmain, List.getElem?_eq_getElem hjlt]
    show some (1 + k) = some (k + 1)
    rw [Nat.add_comm]
  · intro h
    rw [display_driver_position_out, h]
    exact List.mergeSort_nil
  · rw [display_driver_position_heap, length_assignPositions]

/-- Witness for C3 at stScn: both registered drivers are returned sorted
25-then-18 and receive positions 1 and 2, while the registries and the
non-position driver fields stay as they were. -/
theorem display_driver_position_spec_witness :
    (stScn.drivers_dict.map Prod.snd).Nodup ∧
    (∀ q ∈ stScn.drivers_dict, q.2 < stScn.heap.length) ∧
    (((display_driver_position stScn).2).Perm (stScn.drivers_dict.map Prod.snd) ∧
      ((display_driver_position stScn).2).Pairwise
        (fun i j =>
          ((display_driver_position stScn).1.heap.getD j dummyDriver).points ≤
            ((display_driver_position stScn).1.heap.getD i dummyDriver).points) ∧
      (∀ k (hk : k < (display_driver_position stScn).2.length),
        ((display_driver_position stScn).1.heap.getD
            ((display_driver_position stScn).2.get ⟨k, hk⟩) dummyDriver).position =
          some (k + 1)) ∧
      (stScn.drivers_dict = [] → (display_driver_position stScn).2 = []) ∧
      (display_driver_position stScn).1.drivers_dict = stScn.drivers_dict ∧
      (display_driver_position stScn).1.teams_dict = stScn.teams_dict ∧
      (display_driver_position stScn).1.race_dict = stScn.race_dict ∧
      (display_driver_position stScn).1.heap.length = stScn.heap.length ∧
      (∀ j, ((display_driver_position stScn).1.heap.getD j dummyDriver).points =
          (stScn.heap.getD j dummyDriver).points ∧
        ((display_driver_position stScn).1.heap.getD j dummyDriver).name =
          (stScn.heap.getD j dummyDriver).name ∧
        ((display_driver_position stScn).1.heap.getD j dummyDriver).team =
          (stScn.heap.getD j dummyDriver).team)) :=
  ⟨by decide, by decide, display_driver_position_spec stScn (by decide) (by decide)⟩

/-- C6: display_team_standings leaves the state untouched and produces the
registered teams sorted by non-increasing points, paired with ranks that
are exactly 1..N in order. -/
theorem display_team_standings_spec (st : State) :
    (display_team_standings st).1 = st ∧
    ((display_team_standings st).2.map Prod.fst) =
      (List.range st.teams_dict.length).map (· + 1) ∧
    ((display_team_standings st).2.map Prod.snd).Perm
      (st.teams_dict.map Prod.snd) ∧
    ((display_team_standings st).2.map Prod.snd).Pairwise
      (fun a b => b.points ≤ a.points) := by
  have hsnd : (display_team_standings st).2.map Prod.snd =
      (st.teams_dict.map Prod.snd).mergeSort teamLe :=
    ranked_map_snd _
  refine ⟨rfl, ?_, ?_, ?_⟩
  · have hfst := ranked_map_fst ((st.teams_dict.map Prod.snd).mergeSort teamLe)
    rw [List.length_mergeSort, List.length_map] at hfst
    exact hfst
  · rw [hsnd]
    exact List.mergeSort_perm _ _
  · rw [hsnd]
    have hp := List.sorted_mergeSort teamLe_trans teamLe_total
      (st.teams_dict.map Prod.snd)
    refine List.Pairwise.imp ?_ hp
    intro a b hab
    simpa only [teamLe, decide_eq_true_eq] using hab

/-- C10: drivers with equal cumulative points are returned by the
standings sort in registration (insertion) order: any two-driver
subsequence of the registry order with tied points is preserved as a
subsequence of the sorted output. -/
theorem driver_standings_tie_insertion_order (st : State) (i j : Nat)
    (hpts : (st.heap.getD j dummyDriver).points =
      (st.heap.getD i dummyDriver).points)
    (hsub : [i, j].Sublist (st.drivers_dict.map Prod.snd)) :
    [i, j].Sublist (display_driver_position st).2 := by
  have hpair : List.Pairwise (fun a b => driverLe st a b = true) [i, j] := by
    refine List.pairwise_cons.mpr ⟨?_, List.pairwise_singleton _ _⟩
    intro b hb
    have hbj : b = j := List.mem_singleton.mp hb
    subst hbj
    simp only [driverLe, decide_eq_true_eq]
    rw [hpts]
  exact List.sublist_mergeSort (driverLe_trans st) (driverLe_total st) hpair hsub

/-- Witness for C10: drivers A and B both on zero points keep their
registration order in the standings output. -/
theorem driver_standings_tie_insertion_order_witness :
    (stTie.heap.getD 1 dummyDriver).points =
      (stTie.heap.getD 0 dummyDriver).points ∧
    [0, 1].Sublist (stTie.drivers_dict.map Prod.snd) ∧
    [0, 1].Sublist (display_driver_position stTie).2 :=
  ⟨by decide, by decide,
    driver_standings_tie_insertion_order stTie 0 1 (by decide) (by decide)⟩

end F1
